import Mathlib

/-!
Verification of the Grouped Environment Resolution Model
(`src/workspace/grouped_environment.rs`) and the install orchestrator's
environment selection (`src/cli/install.rs`).

The manifest-layer types (`Workspace`, `Environment`, `SolveGroup`,
`SystemRequirements`) are external collaborators of the verified code and are
modelled from the specification: a workspace is an ordered list of environment
records, each carrying a name, an optional solve-group back-reference and its
system requirements; a solve group is identified by its name within a
workspace, its member list being the workspace-ordered environments whose
back-reference names it (the spec's invariant that every member's back-reference
points to its group makes this derivation faithful).
-/

/-- Modelled from the spec: system requirements are per-dimension optional
minimum constraints (minimum platform version, optional hardware capability
version, libc version); `none` means "no constraint". The concrete
`SystemRequirements` type lives in the manifest layer, outside the excerpt. -/
structure SystemRequirements where
  platformVersion : Option Nat
  cuda : Option Nat
  libcVersion : Option Nat
deriving DecidableEq, Repr

/-- The empty requirement set: no constraint in any dimension. -/
def SystemRequirements.empty : SystemRequirements :=
  { platformVersion := none, cuda := none, libcVersion := none }

/-- Most-restrictive combination of one optional minimum-version constraint:
an unset side imposes nothing, two set sides take the larger minimum. -/
def optMax : Option Nat → Option Nat → Option Nat
  | none, b => b
  | some a, none => some a
  | some a, some b => some (max a b)

/-- Modelled from the spec: the most-restrictive merge of two requirement
sets, taken dimension-wise. -/
def SystemRequirements.union (x y : SystemRequirements) : SystemRequirements :=
  { platformVersion := optMax x.platformVersion y.platformVersion
  , cuda := optMax x.cuda y.cuda
  , libcVersion := optMax x.libcVersion y.libcVersion }

/-- Modelled from the spec: the manifest record of one environment — its name,
its optional solve-group back-reference (by group name), and its system
requirements. -/
structure EnvData where
  name : String
  solveGroup : Option String
  systemRequirements : SystemRequirements
deriving DecidableEq, Repr

/-- Modelled from the spec: a workspace owns the ordered list of its declared
environments. -/
structure Workspace where
  envs : List EnvData
deriving DecidableEq, Repr

/-- Modelled from the spec: an `Environment` handle is a reference to one
environment record of a workspace. -/
structure Environment where
  ws : Workspace
  data : EnvData
deriving DecidableEq, Repr

/-- Modelled from the spec: a `SolveGroup` handle names a group within a
workspace; its members are derived from the back-references. -/
structure SolveGroup where
  ws : Workspace
  name : String
deriving DecidableEq, Repr

/-- The environment's name (manifest-layer accessor). -/
def Environment.name (e : Environment) : String := e.data.name

/-- The environment's own system requirements (manifest-layer accessor). -/
def Environment.system_requirements (e : Environment) : SystemRequirements :=
  e.data.systemRequirements

/-- Modelled from the spec: the optional solve-group back-reference of an
environment. -/
def Environment.solve_group (e : Environment) : Option SolveGroup :=
  e.data.solveGroup.map (fun n => SolveGroup.mk e.ws n)

/-- Modelled from the spec: the members of a solve group, in the workspace's
declared environment order. -/
def SolveGroup.environments (sg : SolveGroup) : List Environment :=
  (sg.ws.envs.filter (fun d => decide (d.solveGroup = some sg.name))).map
    (fun d => Environment.mk sg.ws d)

/-- Modelled from the spec: a solve group's system requirements are the
most-restrictive merge of all its members' requirements. -/
def SolveGroup.system_requirements (sg : SolveGroup) : SystemRequirements :=
  (sg.environments.map Environment.system_requirements).foldl
    SystemRequirements.union SystemRequirements.empty

/-- Modelled from the spec: all environments of the workspace, in declared
order (`Workspace::environments`). -/
def Workspace.environments (w : Workspace) : List Environment :=
  w.envs.map (fun d => Environment.mk w d)

/-- Modelled from the spec: name lookup of an environment in a workspace
(`Workspace::environment`); an unknown name is a lookup miss (`none`). -/
def Workspace.environment (w : Workspace) (n : String) : Option Environment :=
  (w.envs.find? (fun d => decide (d.name = n))).map (fun d => Environment.mk w d)

/-- Modelled from the spec: name lookup of a solve group in a workspace
(`Workspace::solve_group`); the group exists exactly when at least one
environment back-references it (declared groups have at least one member). -/
def Workspace.solve_group (w : Workspace) (n : String) : Option SolveGroup :=
  if (w.envs.filter (fun d => decide (d.solveGroup = some n))).isEmpty then none
  else some (SolveGroup.mk w n)

/-- Either a solve group or an individual environment without a solve group
(`GroupedEnvironment` of `grouped_environment.rs`). -/
inductive GroupedEnvironment where
  | group (sg : SolveGroup)
  | environment (env : Environment)
deriving DecidableEq, Repr

/-- A name of a `GroupedEnvironment` (`GroupedEnvironmentName`). -/
inductive GroupedEnvironmentName where
  | group (name : String)
  | environment (name : String)
deriving DecidableEq, Repr

/-- Embedding of `impl From<SolveGroup> for GroupedEnvironment`: peek at the
first two members; two or more members give `Group`, exactly one gives
`Environment` wrapping it, and the empty case is the `unreachable!("empty
solve group")` fault, modelled as `none`. -/
def GroupedEnvironment.fromSolveGroup (source : SolveGroup) : Option GroupedEnvironment :=
  match source.environments with
  | [] => none
  | [first] => some (GroupedEnvironment.environment first)
  | _ :: _ :: _ => some (GroupedEnvironment.group source)

/-- Embedding of `impl From<Environment> for GroupedEnvironment`: if the
environment belongs to a solve group with more than one member, wrap the
group; otherwise wrap the environment itself. -/
def GroupedEnvironment.fromEnvironment (source : Environment) : GroupedEnvironment :=
  match source.solve_group with
  | some g =>
    if g.environments.length > 1 then GroupedEnvironment.group g
    else GroupedEnvironment.environment source
  | none => GroupedEnvironment.environment source

/-- Embedding of `GroupedEnvironment::environments`: all member environments
for a group, the single wrapped environment otherwise. -/
def GroupedEnvironment.environments : GroupedEnvironment → List Environment
  | GroupedEnvironment.group g => g.environments
  | GroupedEnvironment.environment env => [env]

/-- Embedding of `GroupedEnvironment::from_name`: resolve the name against the
workspace; a lookup miss gives `none`. -/
def GroupedEnvironment.from_name (project : Workspace) (name : GroupedEnvironmentName) :
    Option GroupedEnvironment :=
  match name with
  | GroupedEnvironmentName.group g =>
    (project.solve_group g).map GroupedEnvironment.group
  | GroupedEnvironmentName.environment env =>
    (project.environment env).map GroupedEnvironment.environment

/-- Embedding of `GroupedEnvironment::name`: mirrors the variant. -/
def GroupedEnvironment.name : GroupedEnvironment → GroupedEnvironmentName
  | GroupedEnvironment.group g => GroupedEnvironmentName.group g.name
  | GroupedEnvironment.environment env => GroupedEnvironmentName.environment env.name

/-- Embedding of `GroupedEnvironment::system_requirements`: delegates to the
group or the single environment. -/
def GroupedEnvironment.system_requirements : GroupedEnvironment → SystemRequirements
  | GroupedEnvironment.group g => g.system_requirements
  | GroupedEnvironment.environment env => env.system_requirements

/-- A `GroupedEnvironment` value is derived from workspace `w` when its
underlying handle resolves inside `w`: a wrapped group is found by
`Workspace.solve_group` under its own name, and a wrapped environment is a
record of `w`. -/
def GroupedEnvironment.derivedFrom (w : Workspace) : GroupedEnvironment → Prop
  | GroupedEnvironment.group sg => w.solve_group sg.name = some sg
  | GroupedEnvironment.environment e => e.ws = w ∧ e.data ∈ w.envs

instance (w : Workspace) (g : GroupedEnvironment) : Decidable (g.derivedFrom w) := by
  cases g with
  | group sg => exact inferInstanceAs (Decidable (_ = _))
  | environment e => exact inferInstanceAs (Decidable (_ ∧ _))

/-- Canonical form: the `Group` variant carries a solve group with strictly
more than one member. -/
def GroupedEnvironment.canonical : GroupedEnvironment → Prop
  | GroupedEnvironment.group sg => sg.environments.length > 1
  | GroupedEnvironment.environment _ => True

instance (g : GroupedEnvironment) : Decidable g.canonical := by
  cases g with
  | group sg => exact inferInstanceAs (Decidable (_ > _))
  | environment e => exact inferInstanceAs (Decidable True)

/-- Modelled from the spec: the default environment of a workspace, the
environment declared under the default name (`Workspace::default_environment`). -/
def Workspace.default_environment (w : Workspace) : Environment :=
  Environment.mk w
    ((w.envs.find? (fun d => decide (d.name = "default"))).getD
      (EnvData.mk "default" none SystemRequirements.empty))

/-- The CLI arguments of `pixi install` relevant to environment selection
(`Args` of `install.rs`): the optional list of explicit environment names and
the all-environments flag. -/
structure Args where
  environment : Option (List String)
  all : Bool
deriving Repr

/-- Embedding of the environment-selection step of `execute` (`install.rs`
lines 63-73): explicit names if given, else every workspace environment's name
when `all` is set, else the default environment's name. -/
def selectEnvNames (args : Args) (workspace : Workspace) : List String :=
  match args.environment with
  | some envs => envs
  | none =>
    if args.all then workspace.environments.map Environment.name
    else [workspace.default_environment.name]

/-- Modelled from the spec: resolving a given environment name against the
workspace (`Workspace::environment_from_name_or_env_var` called with an
explicit name); an unknown name is a user-facing error. -/
def Workspace.environment_from_name_or_env_var (w : Workspace) (name : String) :
    Except String Environment :=
  match w.environment name with
  | some env => Except.ok env
  | none => Except.error name

/-- Embedding of the name-resolution step of `execute` (`install.rs` lines
76-79): resolve each selected name in order, short-circuiting at the first
failure, as `collect::<Result<Vec<_>, _>>` does. -/
def collectEnvironments (w : Workspace) : List String → Except String (List Environment)
  | [] => Except.ok []
  | n :: rest =>
    match w.environment_from_name_or_env_var n with
    | Except.error e => Except.error e
    | Except.ok env =>
      match collectEnvironments w rest with
      | Except.error e => Except.error e
      | Except.ok envs => Except.ok (env :: envs)

/-- Outcome of the install orchestrator: either the external lockfile-update
operation was invoked with the resolved environments, or `execute` returned an
error first and the update was never invoked. -/
inductive InstallResult where
  | updated (envs : List Environment)
  | failed (err : String)
deriving DecidableEq, Repr

/-- Embedding of `execute` (`install.rs`): select the environment names,
resolve them all, and only on full success hand the list to the external
lockfile-update operation. -/
def execute (args : Args) (workspace : Workspace) : InstallResult :=
  match collectEnvironments workspace (selectEnvNames args workspace) with
  | Except.error e => InstallResult.failed e
  | Except.ok environments => InstallResult.updated environments

/-- Example requirements: a minimum platform version only. -/
def reqPlat (v : Nat) : SystemRequirements :=
  { platformVersion := some v, cuda := none, libcVersion := none }

/-- Example workspace with a single-member solve group "sg": used to exercise
the non-canonicalizing resolution path of `from_name`. -/
def wSingle : Workspace :=
  Workspace.mk [EnvData.mk "a" (some "sg") SystemRequirements.empty]

/-- Example workspace from the spec's scenario: an ungrouped environment
called default plus dev and prod sharing the solve group "shared". -/
def wShared : Workspace :=
  Workspace.mk
    [ EnvData.mk "default" none SystemRequirements.empty
    , EnvData.mk "dev" (some "shared") (reqPlat 10)
    , EnvData.mk "prod" (some "shared") SystemRequirements.empty ]

/-- The dev environment handle of `wShared`. -/
def envDev : Environment :=
  Environment.mk wShared (EnvData.mk "dev" (some "shared") (reqPlat 10))

/-- The prod environment handle of `wShared`. -/
def envProd : Environment :=
  Environment.mk wShared (EnvData.mk "prod" (some "shared") SystemRequirements.empty)

/-- The shared solve group handle of `wShared`. -/
def sgShared : SolveGroup := SolveGroup.mk wShared "shared"

/-- A successful solve-group lookup returns the handle for the looked-up name
and that handle has at least one member. -/
lemma solve_group_some {w : Workspace} {n : String} {sg : SolveGroup}
    (h : w.solve_group n = some sg) :
    sg = SolveGroup.mk w n ∧ sg.environments ≠ [] := by
  unfold Workspace.solve_group at h
  split at h
  · exact Option.noConfusion h
  · next hne =>
    cases Option.some.inj h
    refine ⟨rfl, ?_⟩
    simp only [SolveGroup.environments]
    intro hmap
    rw [List.map_eq_nil_iff] at hmap
    exact hne (by rw [hmap]; rfl)

/-- Under name uniqueness, `find?` by name recovers exactly the member record. -/
lemma find_name_of_nodup (l : List EnvData) (d : EnvData)
    (hnd : (l.map EnvData.name).Nodup) (hmem : d ∈ l) :
    l.find? (fun x => decide (x.name = d.name)) = some d := by
  induction l with
  | nil => cases hmem
  | cons a t ih =>
    rcases List.mem_cons.mp hmem with rfl | hmem
    · exact List.find?_cons_of_pos _ (by simp)
    · have hne : ¬ a.name = d.name := by
        intro he
        have hd : d.name ∈ t.map EnvData.name := List.mem_map_of_mem _ hmem
        rw [← he] at hd
        exact (List.nodup_cons.mp hnd).1 hd
      rw [List.find?_cons_of_neg _ (by simpa using hne)]
      exact ih (List.nodup_cons.mp hnd).2 hmem

/-- Under name uniqueness, two member records with the same name coincide. -/
lemma mem_name_inj {l : List EnvData} {a b : EnvData}
    (hnd : (l.map EnvData.name).Nodup) (ha : a ∈ l) (hb : b ∈ l)
    (hn : a.name = b.name) : a = b := by
  have h1 := find_name_of_nodup l a hnd ha
  have h2 := find_name_of_nodup l b hnd hb
  rw [hn] at h1
  rw [h1] at h2
  exact Option.some.inj h2

/-- Under name uniqueness, environment lookup by name recovers the handle. -/
lemma environment_lookup {w : Workspace} {e : Environment}
    (hws : e.ws = w) (hmem : e.data ∈ w.envs)
    (hnd : (w.envs.map EnvData.name).Nodup) :
    w.environment e.name = some e := by
  unfold Workspace.environment
  simp only [Environment.name]
  rw [find_name_of_nodup w.envs e.data hnd hmem]
  cases e with
  | mk ws d => cases hws; rfl

/-- Most-restrictive combination of optional minimums is associative. -/
lemma optMax_assoc (a b c : Option Nat) : optMax (optMax a b) c = optMax a (optMax b c) := by
  cases a <;> cases b <;> cases c <;> simp [optMax, Nat.max_assoc]

/-- Most-restrictive combination of optional minimums is commutative. -/
lemma optMax_comm (a b : Option Nat) : optMax a b = optMax b a := by
  cases a <;> cases b <;> simp [optMax, Nat.max_comm]

/-- The requirement merge is associative. -/
lemma union_assoc (a b c : SystemRequirements) :
    SystemRequirements.union (SystemRequirements.union a b) c =
      SystemRequirements.union a (SystemRequirements.union b c) := by
  simp [SystemRequirements.union, optMax_assoc]

/-- The requirement merge is commutative. -/
lemma union_comm (a b : SystemRequirements) :
    SystemRequirements.union a b = SystemRequirements.union b a := by
  simp [SystemRequirements.union, optMax_comm]

/-- Folding the requirement merge is invariant under permutation of the
member list. -/
lemma foldl_union_perm {l₁ l₂ : List SystemRequirements} (p : l₁.Perm l₂) :
    ∀ init : SystemRequirements,
      l₁.foldl SystemRequirements.union init = l₂.foldl SystemRequirements.union init := by
  induction p with
  | nil => intro init; rfl
  | cons x _ ih => intro init; simp only [List.foldl_cons]; exact ih _
  | swap x y l =>
    intro init
    simp only [List.foldl_cons]
    have hc : SystemRequirements.union (SystemRequirements.union init y) x =
        SystemRequirements.union (SystemRequirements.union init x) y := by
      rw [union_assoc, union_assoc, union_comm y x]
    rw [hc]
  | trans _ _ ih₁ ih₂ => intro init; rw [ih₁, ih₂]

/-- If some selected name misses the workspace lookup, collecting the
resolutions short-circuits into an error. -/
lemma collect_error (w : Workspace) :
    ∀ names : List String, (∃ n ∈ names, w.environment n = none) →
      ∃ e, collectEnvironments w names = Except.error e := by
  intro names
  induction names with
  | nil => rintro ⟨n, hn, _⟩; cases hn
  | cons a t ih =>
    rintro ⟨n, hn, hnone⟩
    rcases List.mem_cons.mp hn with rfl | hmem
    · exact ⟨n, by simp [collectEnvironments, Workspace.environment_from_name_or_env_var, hnone]⟩
    · cases hma : w.environment_from_name_or_env_var a with
      | error e => exact ⟨e, by simp [collectEnvironments, hma]⟩
      | ok env =>
        obtain ⟨e, he⟩ := ih ⟨n, hmem, hnone⟩
        exact ⟨e, by simp [collectEnvironments, hma, he]⟩

/-- Claim C1, counterexample: resolving the name of a single-member solve
group through `from_name` produces the `Group` variant even though the group
has exactly one member, so not every construction path yields canonical form. -/
theorem claimC1_counterexample :
    GroupedEnvironment.from_name wSingle (GroupedEnvironmentName.group "sg") =
      some (GroupedEnvironment.group (SolveGroup.mk wSingle "sg")) ∧
    (SolveGroup.mk wSingle "sg").environments.length = 1 ∧
    ¬ (GroupedEnvironment.group (SolveGroup.mk wSingle "sg")).canonical := by
  refine ⟨by decide, by decide, by decide⟩

/-- Claim C1 (amended): construction from a `SolveGroup` and from an
`Environment` always yields canonical form, and resolution of an
environment-shaped name yields canonical form; but resolution of a
group-shaped name wraps the looked-up solve group in the `Group` variant
whenever the group exists, without the more-than-one-member check. -/
theorem claimC1_amended :
    (∀ (sg : SolveGroup) (g : GroupedEnvironment),
      GroupedEnvironment.fromSolveGroup sg = some g → g.canonical) ∧
    (∀ e : Environment, (GroupedEnvironment.fromEnvironment e).canonical) ∧
    (∀ (w : Workspace) (n : String) (g : GroupedEnvironment),
      GroupedEnvironment.from_name w (GroupedEnvironmentName.environment n) = some g →
      g.canonical) ∧
    (∀ (w : Workspace) (n : String) (sg : SolveGroup),
      w.solve_group n = some sg →
      GroupedEnvironment.from_name w (GroupedEnvironmentName.group n) =
        some (GroupedEnvironment.group sg)) := by
  refine ⟨?_, ?_, ?_, ?_⟩
  · intro sg g hg
    rcases henv : sg.environments with _ | ⟨a, _ | ⟨b, rest⟩⟩ <;>
      simp [GroupedEnvironment.fromSolveGroup, henv] at hg
    · cases hg; trivial
    · cases hg
      simp [GroupedEnvironment.canonical, henv]
  · intro e
    cases hsg : e.solve_group with
    | none => simp [GroupedEnvironment.fromEnvironment, hsg, GroupedEnvironment.canonical]
    | some g =>
      by_cases hlen : g.environments.length > 1
      · simp [GroupedEnvironment.fromEnvironment, hsg, hlen, GroupedEnvironment.canonical]
      · simp [GroupedEnvironment.fromEnvironment, hsg, hlen, GroupedEnvironment.canonical]
  · intro w n g hg
    cases he : w.environment n with
    | none => simp [GroupedEnvironment.from_name, he] at hg
    | some env =>
      simp [GroupedEnvironment.from_name, he] at hg
      cases hg; trivial
  · intro w n sg h
    simp [GroupedEnvironment.from_name, h]

/-- Claim C1 witness: the amended theorem applied to the shared solve group
and to the single-member workspace lookup. -/
theorem claimC1_witness :
    (GroupedEnvironment.group sgShared).canonical ∧
    GroupedEnvironment.from_name wSingle (GroupedEnvironmentName.group "sg") =
      some (GroupedEnvironment.group (SolveGroup.mk wSingle "sg")) :=
  ⟨claimC1_amended.1 sgShared (GroupedEnvironment.group sgShared) (by decide),
   claimC1_amended.2.2.2 wSingle "sg" (SolveGroup.mk wSingle "sg") (by decide)⟩

/-- Claim C2: constructing from a solve group yields `Group` when it has more
than one member, and yields `Environment` wrapping the sole member when it has
exactly one. -/
theorem claimC2_fromSolveGroup_collapse (sg : SolveGroup) :
    (sg.environments.length > 1 →
      GroupedEnvironment.fromSolveGroup sg = some (GroupedEnvironment.group sg)) ∧
    (∀ e : Environment, sg.environments = [e] →
      GroupedEnvironment.fromSolveGroup sg = some (GroupedEnvironment.environment e)) := by
  constructor
  · intro h
    rcases henv : sg.environments with _ | ⟨a, _ | ⟨b, rest⟩⟩
    · rw [henv] at h; simp at h
    · rw [henv] at h; simp at h
    · simp [GroupedEnvironment.fromSolveGroup, henv]
  · intro e he
    simp [GroupedEnvironment.fromSolveGroup, he]

/-- Claim C2 witness: the two-member shared group collapses to `Group`, and a
one-member group collapses to its sole member. -/
theorem claimC2_witness :
    GroupedEnvironment.fromSolveGroup sgShared = some (GroupedEnvironment.group sgShared) ∧
    GroupedEnvironment.fromSolveGroup (SolveGroup.mk wSingle "sg") =
      some (GroupedEnvironment.environment
        (Environment.mk wSingle (EnvData.mk "a" (some "sg") SystemRequirements.empty))) :=
  ⟨(claimC2_fromSolveGroup_collapse sgShared).1 (by decide),
   (claimC2_fromSolveGroup_collapse (SolveGroup.mk wSingle "sg")).2
     (Environment.mk wSingle (EnvData.mk "a" (some "sg") SystemRequirements.empty))
     (by decide)⟩

/-- Claim C3: constructing from an environment yields `Group` wrapping its
solve group exactly when the group has more than one member; with no solve
group, or a one-member solve group, it yields `Environment` wrapping the
environment itself. -/
theorem claimC3_fromEnvironment (source : Environment) :
    (∀ g : SolveGroup, source.solve_group = some g → g.environments.length > 1 →
      GroupedEnvironment.fromEnvironment source = GroupedEnvironment.group g) ∧
    (source.solve_group = none →
      GroupedEnvironment.fromEnvironment source = GroupedEnvironment.environment source) ∧
    (∀ g : SolveGroup, source.solve_group = some g → g.environments.length = 1 →
      GroupedEnvironment.fromEnvironment source = GroupedEnvironment.environment source) := by
  refine ⟨?_, ?_, ?_⟩
  · intro g hg hlen
    simp [GroupedEnvironment.fromEnvironment, hg, hlen]
  · intro h
    simp [GroupedEnvironment.fromEnvironment, h]
  · intro g hg hlen
    simp [GroupedEnvironment.fromEnvironment, hg, hlen]

/-- Claim C3 witness: dev belongs to the two-member shared group and yields
`Group`; the sole member of the one-member group "sg" yields `Environment`. -/
theorem claimC3_witness :
    GroupedEnvironment.fromEnvironment envDev = GroupedEnvironment.group sgShared ∧
    GroupedEnvironment.fromEnvironment
        (Environment.mk wSingle (EnvData.mk "a" (some "sg") SystemRequirements.empty)) =
      GroupedEnvironment.environment
        (Environment.mk wSingle (EnvData.mk "a" (some "sg") SystemRequirements.empty)) :=
  ⟨(claimC3_fromEnvironment envDev).1 sgShared (by decide) (by decide),
   (claimC3_fromEnvironment
       (Environment.mk wSingle (EnvData.mk "a" (some "sg") SystemRequirements.empty))).2.2
     (SolveGroup.mk wSingle "sg") (by decide) (by decide)⟩

/-- Claim C8: an empty solve group hits the unreachable-state fault (modelled
as `none`), never a silent `Environment` or `Group` value; under the
precondition that the group has at least one member the fault branch is never
reached. -/
theorem claimC8_empty_group_fault (sg : SolveGroup) :
    (sg.environments = [] → GroupedEnvironment.fromSolveGroup sg = none) ∧
    (sg.environments ≠ [] → (GroupedEnvironment.fromSolveGroup sg).isSome = true) := by
  constructor
  · intro h
    simp [GroupedEnvironment.fromSolveGroup, h]
  · intro h
    rcases henv : sg.environments with _ | ⟨a, _ | ⟨b, rest⟩⟩
    · exact absurd henv h
    · simp [GroupedEnvironment.fromSolveGroup, henv]
    · simp [GroupedEnvironment.fromSolveGroup, henv]

/-- Claim C8 witness: a group name nobody references is empty and faults; the
shared group is non-empty and constructs successfully. -/
theorem claimC8_witness :
    GroupedEnvironment.fromSolveGroup (SolveGroup.mk wShared "nogroup") = none ∧
    (GroupedEnvironment.fromSolveGroup sgShared).isSome = true :=
  ⟨(claimC8_empty_group_fault (SolveGroup.mk wShared "nogroup")).1 (by decide),
   (claimC8_empty_group_fault sgShared).2 (by decide)⟩

/-- Claim C9: explicit names are used exactly as given (order and duplicates
preserved); otherwise the all flag selects every workspace environment in
declared order; otherwise the single default environment is selected. -/
theorem claimC9_selection :
    (∀ (names : List String) (allFlag : Bool) (w : Workspace),
      selectEnvNames (Args.mk (some names) allFlag) w = names) ∧
    (∀ w : Workspace,
      selectEnvNames (Args.mk none true) w = w.environments.map Environment.name) ∧
    (∀ w : Workspace,
      selectEnvNames (Args.mk none false) w = [w.default_environment.name]) :=
  ⟨fun _ _ _ => rfl, fun _ => rfl, fun _ => rfl⟩

/-- Claim C4: for a grouped environment derived from a workspace with unique
environment names, resolving its name back against that workspace returns a
non-empty result equal to the original. -/
theorem claimC4_roundtrip (w : Workspace) (g : GroupedEnvironment)
    (hg : g.derivedFrom w) (hnd : (w.envs.map EnvData.name).Nodup) :
    GroupedEnvironment.from_name w g.name = some g := by
  cases g with
  | group sg =>
    have hd : w.solve_group sg.name = some sg := hg
    simp [GroupedEnvironment.name, GroupedEnvironment.from_name, hd]
  | environment e =>
    have hd : e.ws = w ∧ e.data ∈ w.envs := hg
    have hl := environment_lookup hd.1 hd.2 hnd
    simp [GroupedEnvironment.name, GroupedEnvironment.from_name, hl]

/-- Claim C4 witness: the round trip at the shared group and at the dev
environment of the example workspace. -/
theorem claimC4_witness :
    GroupedEnvironment.from_name wShared (GroupedEnvironment.group sgShared).name =
      some (GroupedEnvironment.group sgShared) ∧
    GroupedEnvironment.from_name wShared (GroupedEnvironment.environment envDev).name =
      some (GroupedEnvironment.environment envDev) :=
  ⟨claimC4_roundtrip wShared (GroupedEnvironment.group sgShared) (by decide) (by decide),
   claimC4_roundtrip wShared (GroupedEnvironment.environment envDev) (by decide) (by decide)⟩

/-- Claim C5: grouped environments derived from the same workspace with unique
environment names are equal exactly when their names (variant plus underlying
name) are equal; in particular two member environments of the same
multi-member solve group construct equal values. -/
theorem claimC5_equality :
    (∀ (w : Workspace) (g₁ g₂ : GroupedEnvironment),
      g₁.derivedFrom w → g₂.derivedFrom w → (w.envs.map EnvData.name).Nodup →
      (g₁ = g₂ ↔ g₁.name = g₂.name)) ∧
    (∀ (w : Workspace) (e₁ e₂ : Environment) (n : String),
      e₁.ws = w → e₂.ws = w →
      e₁.data.solveGroup = some n → e₂.data.solveGroup = some n →
      (SolveGroup.mk w n).environments.length > 1 →
      GroupedEnvironment.fromEnvironment e₁ = GroupedEnvironment.fromEnvironment e₂) := by
  constructor
  · intro w g₁ g₂ h₁ h₂ hnd
    constructor
    · intro he; rw [he]
    · intro hn
      cases g₁ with
      | group sg₁ =>
        cases g₂ with
        | group sg₂ =>
          have hname : sg₁.name = sg₂.name := by
            simpa [GroupedEnvironment.name] using hn
          obtain ⟨he₁, -⟩ := solve_group_some (h₁ : w.solve_group sg₁.name = some sg₁)
          obtain ⟨he₂, -⟩ := solve_group_some (h₂ : w.solve_group sg₂.name = some sg₂)
          rw [he₁, he₂, hname]
        | environment e₂ => simp [GroupedEnvironment.name] at hn
      | environment e₁ =>
        cases g₂ with
        | group sg₂ => simp [GroupedEnvironment.name] at hn
        | environment e₂ =>
          have hname : e₁.data.name = e₂.data.name := by
            simpa [GroupedEnvironment.name, Environment.name] using hn
          have hd₁ : e₁.ws = w ∧ e₁.data ∈ w.envs := h₁
          have hd₂ : e₂.ws = w ∧ e₂.data ∈ w.envs := h₂
          have hdata : e₁.data = e₂.data := mem_name_inj hnd hd₁.2 hd₂.2 hname
          have hws : e₁.ws = e₂.ws := by rw [hd₁.1, hd₂.1]
          cases e₁ with
          | mk ws₁ d₁ =>
            cases e₂ with
            | mk ws₂ d₂ =>
              have hws2 : ws₁ = ws₂ := hws
              have hdd : d₁ = d₂ := hdata
              rw [hws2, hdd]
  · intro w e₁ e₂ n hw₁ hw₂ hs₁ hs₂ hlen
    simp [GroupedEnvironment.fromEnvironment, Environment.solve_group, hs₁, hs₂, hw₁, hw₂, hlen]

/-- Claim C5 witness: equality of the two grouped environments built from dev
and prod, and the equality criterion at the dev and prod handles. -/
theorem claimC5_witness :
    (GroupedEnvironment.environment envDev = GroupedEnvironment.environment envProd ↔
      (GroupedEnvironment.environment envDev).name =
        (GroupedEnvironment.environment envProd).name) ∧
    GroupedEnvironment.fromEnvironment envDev = GroupedEnvironment.fromEnvironment envProd :=
  ⟨claimC5_equality.1 wShared (GroupedEnvironment.environment envDev)
     (GroupedEnvironment.environment envProd) (by decide) (by decide) (by decide),
   claimC5_equality.2 wShared envDev envProd "shared" rfl rfl rfl rfl (by decide)⟩

/-- Claim C6: `environments` yields exactly the group's members in declared
order for the `Group` variant, exactly the one wrapped environment for the
`Environment` variant, and is never empty on values derived from a workspace. -/
theorem claimC6_environments :
    (∀ sg : SolveGroup, (GroupedEnvironment.group sg).environments = sg.environments) ∧
    (∀ e : Environment, (GroupedEnvironment.environment e).environments = [e]) ∧
    (∀ (w : Workspace) (g : GroupedEnvironment), g.derivedFrom w → g.environments ≠ []) := by
  refine ⟨fun _ => rfl, fun _ => rfl, ?_⟩
  intro w g hg
  cases g with
  | group sg =>
    obtain ⟨-, hne⟩ := solve_group_some (hg : w.solve_group sg.name = some sg)
    simpa [GroupedEnvironment.environments] using hne
  | environment e => simp [GroupedEnvironment.environments]

/-- Claim C6 witness: the shared group's environment list is non-empty. -/
theorem claimC6_witness :
    (GroupedEnvironment.group sgShared).environments ≠ [] :=
  claimC6_environments.2.2 wShared (GroupedEnvironment.group sgShared) (by decide)

/-- Claim C7: the `Environment` variant returns its own requirements
unchanged; the `Group` variant returns the fold of the most-restrictive merge
over all members; the merge is associative, commutative, and the fold is
independent of member order; and an explicit constraint is never loosened by
an unconstrained member. -/
theorem claimC7_system_requirements :
    (∀ e : Environment,
      (GroupedEnvironment.environment e).system_requirements = e.system_requirements) ∧
    (∀ sg : SolveGroup,
      (GroupedEnvironment.group sg).system_requirements =
        (sg.environments.map Environment.system_requirements).foldl
          SystemRequirements.union SystemRequirements.empty) ∧
    (∀ a b c : SystemRequirements,
      SystemRequirements.union (SystemRequirements.union a b) c =
        SystemRequirements.union a (SystemRequirements.union b c)) ∧
    (∀ a b : SystemRequirements,
      SystemRequirements.union a b = SystemRequirements.union b a) ∧
    (∀ l₁ l₂ : List SystemRequirements, l₁.Perm l₂ →
      l₁.foldl SystemRequirements.union SystemRequirements.empty =
        l₂.foldl SystemRequirements.union SystemRequirements.empty) ∧
    (∀ (a b : SystemRequirements) (v : Nat), a.platformVersion = some v →
      b.platformVersion = none →
      (SystemRequirements.union a b).platformVersion = some v) := by
  refine ⟨fun _ => rfl, fun _ => rfl, union_assoc, union_comm, ?_, ?_⟩
  · intro l₁ l₂ p
    exact foldl_union_perm p _
  · intro a b v ha hb
    simp [SystemRequirements.union, ha, hb, optMax]

/-- Claim C7 witness: merging a platform-version-10 requirement with an
unconstrained one keeps 10, in both orders of the member list. -/
theorem claimC7_witness :
    [reqPlat 10, SystemRequirements.empty].foldl
        SystemRequirements.union SystemRequirements.empty =
      [SystemRequirements.empty, reqPlat 10].foldl
        SystemRequirements.union SystemRequirements.empty ∧
    (SystemRequirements.union (reqPlat 10) SystemRequirements.empty).platformVersion =
      some 10 :=
  ⟨claimC7_system_requirements.2.2.2.2.1 [reqPlat 10, SystemRequirements.empty]
     [SystemRequirements.empty, reqPlat 10]
     (List.Perm.swap SystemRequirements.empty (reqPlat 10) []),
   claimC7_system_requirements.2.2.2.2.2 (reqPlat 10) SystemRequirements.empty 10 rfl rfl⟩

/-- Claim C10: if any selected environment name misses the workspace lookup,
`execute` fails before the external lockfile-update operation is invoked, so
no environment list ever reaches the update. -/
theorem claimC10_error_before_update (args : Args) (w : Workspace)
    (h : ∃ n ∈ selectEnvNames args w, w.environment n = none) :
    (∃ e, execute args w = InstallResult.failed e) ∧
    ∀ envs : List Environment, execute args w ≠ InstallResult.updated envs := by
  obtain ⟨e, he⟩ := collect_error w (selectEnvNames args w) h
  refine ⟨⟨e, ?_⟩, ?_⟩
  · simp [execute, he]
  · intro envs hcontra
    simp [execute, he] at hcontra

/-- Claim C10 witness: an unknown explicit environment name makes `execute`
fail without invoking the update. -/
theorem claimC10_witness :
    (∃ e, execute (Args.mk (some ["nope"]) false) wShared = InstallResult.failed e) ∧
    ∀ envs : List Environment,
      execute (Args.mk (some ["nope"]) false) wShared ≠ InstallResult.updated envs :=
  claimC10_error_before_update (Args.mk (some ["nope"]) false) wShared (by decide)
